import Mathlib

/-!
Verification of the prompt-assembly / provider-dispatch core of rbot
(`rbot.py`): the History Builder, the Provider Dispatcher for the
chat-style ("openai") and single-prompt ("anthropic") variants, the
Session Store, the interactive loop step, and the non-interactive
invocation path.  Python data is embedded shallowly: a conversation
history is a list of role/content records, provider responses are
supplied as explicit data (the fragment list a streaming call yields,
or the completion payload), and the file system backing the session
store is a name-to-JSON association list.
-/

namespace Rbot

/-- Role of one conversation turn (`"system"`, `"user"`, `"assistant"`). -/
inductive Role
  | system
  | user
  | assistant
deriving DecidableEq

/-- One entry of a conversation history: a `{"role": ..., "content": ...}`
dict in `rbot.py`. -/
structure Turn where
  role : Role
  content : String
deriving DecidableEq

/-- A `{"role": "system", "content": d}` dict (rbot.py lines 98-103, 224-230). -/
def systemTurn (d : String) : Turn := ⟨Role.system, d⟩

/-- A `{"role": "user", "content": p}` dict (rbot.py lines 105, 268, 284). -/
def userTurn (p : String) : Turn := ⟨Role.user, p⟩

/-- An `{"role": "assistant", "content": r}` dict (rbot.py line 270). -/
def assistantTurn (r : String) : Turn := ⟨Role.assistant, r⟩

/-- The decorator part of a fresh history (rbot.py lines 96-103 inside
`chat`, identically lines 223-230 of `main`): start from `[]` and append
one system turn per decorator, in order. -/
def decoratorHistory (decorators : List String) : List Turn :=
  decorators.foldl (fun h d => h ++ [systemTurn d]) []

/-- Fresh history construction (rbot.py `chat` lines 96-105, identically
`main` lines 223-230 followed by the user-turn append at line 268/284):
the decorator system turns, then the user turn holding the prompt. -/
def buildHistory (decorators : List String) (prompt : String) : List Turn :=
  decoratorHistory decorators ++ [userTurn prompt]

/-- The message list the openai branch of `chat` transmits
(rbot.py lines 92-106).  Python's `if history:` is false both for `None`
and for the empty list, in which case the history is rebuilt from the
decorators. -/
def chatMessages (decorators : List String) (prompt : String)
    (history : Option (List Turn)) : List Turn :=
  match history with
  | some h => if h.isEmpty then buildHistory decorators prompt else h
  | none => buildHistory decorators prompt

/-- Initial history in `main` (rbot.py lines 223-235): the decorator
system turns are assembled first, and a loaded session *replaces* them
(the assignment at line 235 overwrites the list built at 223-230). -/
def mainInitialHistory (decorators : List String)
    (loaded : Option (List Turn)) : List Turn :=
  match loaded with
  | some h => h
  | none => decoratorHistory decorators

/-- Keyword arguments of the `openai.ChatCompletion.create` call
(rbot.py lines 84-106). -/
structure OpenaiArgs where
  max_tokens : Nat
  model : String
  request_timeout : Nat
  stream : Bool
  temperature : Rat
  messages : List Turn
deriving DecidableEq

/-- The `anthropic.HUMAN_PROMPT` marker of the anthropic client library. -/
def HUMAN_PROMPT : String := "\n\nHuman:"

/-- The `anthropic.AI_PROMPT` marker of the anthropic client library. -/
def AI_PROMPT : String := "\n\nAssistant:"

/-- Arguments of the `c.completion(...)` call (rbot.py lines 119-124). -/
structure AnthropicRequest where
  prompt : String
  stop_sequences : List String
  model : String
  max_tokens_to_sample : Nat
deriving DecidableEq

/-- The request a `chat` call transmits to its provider, or no request at
all: `chat` falls through both branches for an engine name other than
`"openai"` and `"anthropic"`. -/
inductive Request
  | openaiReq (args : OpenaiArgs)
  | anthropicReq (r : AnthropicRequest)
  | noRequest
deriving DecidableEq

/-- The request construction of `chat` (rbot.py lines 82-124), keeping
every parameter of the Python signature.  The openai branch sends the
full argument record including the message list; the anthropic branch
sends only `f"{HUMAN_PROMPT} {prompt} {AI_PROMPT}"` with the human marker
as stop sequence, ignoring decorators, history, stream, timeout and
temperature. -/
def chatRequest (prompt : String) (decorators : List String) (model : String)
    (max_tokens : Nat) (stream : Bool) (request_timeout : Nat)
    (temperature : Rat) (history : Option (List Turn)) (engine : String) :
    Request :=
  if engine = "openai" then
    Request.openaiReq
      { max_tokens := max_tokens
        model := model
        request_timeout := request_timeout
        stream := stream
        temperature := temperature
        messages := chatMessages decorators prompt history }
  else if engine = "anthropic" then
    Request.anthropicReq
      { prompt := HUMAN_PROMPT ++ " " ++ prompt ++ " " ++ AI_PROMPT
        stop_sequences := [HUMAN_PROMPT]
        model := model
        max_tokens_to_sample := max_tokens }
  else
    Request.noRequest

/-- Accumulation of the streamed openai response (rbot.py lines 110-115):
each fragment's `delta.get("content")` is an optional string, and
`if text:` appends it only when it is neither `None` nor empty. -/
def openaiReply (fragments : List (Option String)) : String :=
  fragments.foldl
    (fun response t =>
      match t with
      | some text => if text = "" then response else response ++ text
      | none => response)
    ""

/-- Return value of `chat` (rbot.py lines 82-125), with the provider's
response supplied as data: the list of streamed fragments for the openai
branch, the `resp["completion"]` payload for the anthropic branch.  The
missing `else` of the engine conditional makes Python return `None`,
modelled by `Option.none`. -/
def chat (openaiFragments : List (Option String))
    (anthropicCompletion : String) (prompt : String)
    (decorators : List String) (model : String) (max_tokens : Nat)
    (stream : Bool) (request_timeout : Nat) (temperature : Rat)
    (history : Option (List Turn)) (engine : String) : Option String :=
  match chatRequest prompt decorators model max_tokens stream
      request_timeout temperature history engine with
  | Request.openaiReq _ => some (openaiReply openaiFragments)
  | Request.anthropicReq _ => some anthropicCompletion
  | Request.noRequest => none

/-- Modelled from the spec: the configured engine catalog.  The
`engines.yaml` file read at rbot.py line 51 is not part of the sources;
the spec's Provider Profile section describes exactly two provider
variants, the chat-style ("openai") one and the single-prompt
("anthropic") one, so the configured engine names are these two. -/
def configuredEngines : List String := ["openai", "anthropic"]

/-! ### Session store

`/save` writes `json.dump(history, f)` to `<sessions_dir>/<name>`
(rbot.py lines 260-266); `--load` reads it back with `json.load`
(lines 231-235).  The file system is embedded as an association list
from file name to the JSON value stored there, and `json.dump` /
`json.load` as the translation between a turn list and its JSON value. -/

/-- A JSON value, as produced by `json.dump` / consumed by `json.load`. -/
inductive Jval
  | jnull
  | jbool (b : Bool)
  | jnum (n : Int)
  | jstr (s : String)
  | jarr (xs : List Jval)
  | jobj (fields : List (String × Jval))

/-- The string `json.dump` writes for a role (the dict values rbot puts
in a history). -/
def Role.toStr : Role → String
  | Role.system => "system"
  | Role.user => "user"
  | Role.assistant => "assistant"

/-- Reading a role string back from a session file. -/
def roleOfStr (s : String) : Option Role :=
  if s = "system" then some Role.system
  else if s = "user" then some Role.user
  else if s = "assistant" then some Role.assistant
  else none

/-- `json.dump` of one history entry: a two-field object, insertion
order `role` then `content` (rbot.py lines 98-103). -/
def encodeTurn (t : Turn) : Jval :=
  Jval.jobj [("role", Jval.jstr t.role.toStr), ("content", Jval.jstr t.content)]

/-- `json.dump` of a whole history: the array of its entries in order
(rbot.py line 265). -/
def encodeHistory (h : List Turn) : Jval :=
  Jval.jarr (h.map encodeTurn)

/-- Field lookup in a JSON object / file lookup in the store. -/
def jlookup (k : String) : List (String × Jval) → Option Jval
  | [] => none
  | (k', v) :: rest => if k' = k then some v else jlookup k rest

/-- Reading one history entry back from a loaded JSON value. -/
def decodeTurn : Jval → Option Turn
  | Jval.jobj fields =>
    match jlookup "role" fields, jlookup "content" fields with
    | some (Jval.jstr r), some (Jval.jstr c) =>
      (roleOfStr r).map (fun ro => ⟨ro, c⟩)
    | _, _ => none
  | _ => none

/-- Reading a whole history back from a loaded JSON value. -/
def decodeHistory : Jval → Option (List Turn)
  | Jval.jarr xs => xs.mapM decodeTurn
  | _ => none

/-- The sessions directory, as a map from file name to file content. -/
abbrev SessionStore := List (String × Jval)

/-- `/save name` (rbot.py lines 260-266): serialize the history and
write it at `name`, silently shadowing an existing file of that name. -/
def sessionSave (store : SessionStore) (name : String) (h : List Turn) :
    SessionStore :=
  (name, encodeHistory h) :: store

/-- `--load name` (rbot.py lines 231-235): read the file and interpret
its JSON content as a history; `none` when the file is missing or its
content is not a turn list. -/
def sessionLoad (store : SessionStore) (name : String) :
    Option (List Turn) :=
  (jlookup name store).bind decodeHistory

/-! ### Interactive loop step

One iteration of the `while True` loop (rbot.py lines 256-271).  There
is no `try`/`except` around the `chat` call, so a provider exception
propagates out of the loop; the outcome type records that case
explicitly. -/

/-- ASCII lowering, for `prompt.lower()` on the command words. -/
def pyLower (s : String) : String := ⟨s.data.map Char.toLower⟩

/-- Outcome of one loop iteration: still awaiting input (optionally
having saved the history under a name), terminated by `/quit`, or
crashed because the dispatch call raised and nothing catches it. -/
inductive LoopOutcome
  | awaiting (history : List Turn) (saved : Option String)
  | terminated (history : List Turn)
  | crashed (history : List Turn) (err : String)
deriving DecidableEq

/-- Whether the loop is still awaiting input after the iteration. -/
def LoopOutcome.isAwaiting : LoopOutcome → Bool
  | LoopOutcome.awaiting _ _ => true
  | _ => false

/-- One iteration of the interactive loop (rbot.py lines 256-271) on the
input line read, with the provider call supplied as a fallible oracle
from (history sent, prompt) to reply.  `/quit` compares the lowered
line, `/save ` is a lowered-prefix test whose file name is taken from
the original line, and any other line appends a user turn, dispatches,
and appends the assistant turn only when the call returns. -/
def loopStep (dispatch : List Turn → String → Except String String)
    (history : List Turn) (input : String) : LoopOutcome :=
  if pyLower input = "/quit" then
    LoopOutcome.terminated history
  else if List.isPrefixOf "/save ".data (pyLower input).data then
    LoopOutcome.awaiting history (some ⟨(input.data.drop 6)⟩)
  else
    let h := history ++ [userTurn input]
    match dispatch h input with
    | Except.ok reply => LoopOutcome.awaiting (h ++ [assistantTurn reply]) none
    | Except.error e => LoopOutcome.crashed h e

/-! ### Non-interactive invocation

rbot.py lines 272-290: resolve the prompt from `-p`, `-f` or `--stdin`,
append the user turn, call `chat` unconditionally, and print either the
full reply or the inner text of an `OUTPUT="""..."""` block. -/

/-- Python whitespace stripped by `str.strip()`. -/
def pyWhitespace (c : Char) : Bool :=
  c == ' ' || c == '\t' || c == '\n' || c == '\r' || c == '\x0b' || c == '\x0c'

/-- `str.strip()` on a character list. -/
def pyStripL (cs : List Char) : List Char :=
  ((cs.dropWhile pyWhitespace).reverse.dropWhile pyWhitespace).reverse

/-- `str.strip()`. -/
def pyStrip (s : String) : String := ⟨pyStripL s.data⟩

/-- The `elif args.prompt_file` / `elif args.stdin` tail of the prompt
cascade (rbot.py lines 276-282): a present prompt file contributes its
content stripped; with `--stdin`, a non-empty readlines list contributes
the stripped concatenation of the lines; otherwise the prompt stays
`None`. -/
def resolveFileStdin (promptFileContent : Option String)
    (stdinFlag : Bool) (stdinLines : List String) : Option String :=
  match promptFileContent with
  | some c => some (pyStrip c)
  | none =>
    if stdinFlag then
      if stdinLines.isEmpty then none
      else some (pyStrip (String.join stdinLines))
    else none

/-- Prompt resolution (rbot.py lines 273-282).  `if args.prompt:` is a
truthiness test, so an empty `-p` argument falls through to the later
sources exactly like an absent one. -/
def resolvePrompt (promptArg : Option String)
    (promptFileContent : Option String) (stdinFlag : Bool)
    (stdinLines : List String) : Option String :=
  match promptArg with
  | some p =>
    if p = "" then resolveFileStdin promptFileContent stdinFlag stdinLines
    else some p
  | none => resolveFileStdin promptFileContent stdinFlag stdinLines

/-- A history entry whose content may be Python `None`: the
non-interactive path appends `{"role": "user", "content": prompt}` even
when the prompt resolved to `None` (rbot.py line 284). -/
structure RawTurn where
  role : String
  content : Option String
deriving DecidableEq

/-- What one non-interactive invocation did: the history and prompt
handed to `chat`, whether the dispatch round trip happened at all, and
what was printed. -/
structure NonInteractiveRun where
  historySent : List RawTurn
  promptSent : Option String
  dispatched : Bool
  printed : String
deriving DecidableEq

/-! ### The structured-output search

rbot.py line 286 compiles the pattern
`OUTPUT ?= ?\x22\x22\x22((\n|.)*?)\x22\x22\x22` and line 287 searches the
reply for its leftmost match; the lazy group stops at the first closing
triple quote.  The search is embedded as a character-list scan. -/

/-- The triple-quote delimiter of the structured-output convention. -/
def tq : List Char := ['\"', '\"', '\"']

/-- The literal `OUTPUT` head of the pattern. -/
def outputChars : List Char := "OUTPUT".data

/-- Consume an exact literal from the front, returning the remainder. -/
def dropLit : List Char → List Char → Option (List Char)
  | [], cs => some cs
  | _ :: _, [] => none
  | l :: ls, c :: cs => if c = l then dropLit ls cs else none

/-- Consume the regex piece `\x20?lit`: one optional space, then the
literal.  The greedy space branch is tried first; for the literals used
here (`=` and the triple quote, neither starting with a space) the
zero-space backtrack after a consumed space can never succeed, so it is
omitted. -/
def eatOptSpaceLit (lit : List Char) (cs : List Char) : Option (List Char) :=
  match cs with
  | c :: rest => if c = ' ' then dropLit lit rest else dropLit lit cs
  | [] => dropLit lit []

/-- Split at the first occurrence of the closing triple quote: returns
the characters before it (the lazy group) and the characters after it. -/
def splitAtTriple : List Char → Option (List Char × List Char)
  | [] => none
  | c :: cs =>
    if c = '\"' ∧ cs.take 2 = ['\"', '\"'] then some ([], cs.drop 2)
    else (splitAtTriple cs).map (fun p => (c :: p.1, p.2))

/-- Try to match the whole pattern starting exactly here; on success,
return the lazily captured group. -/
def matchOutputAt (cs : List Char) : Option (List Char) :=
  match dropLit outputChars cs with
  | none => none
  | some cs1 =>
    match eatOptSpaceLit ['='] cs1 with
    | none => none
    | some cs2 =>
      match eatOptSpaceLit tq cs2 with
      | none => none
      | some cs3 => (splitAtTriple cs3).map (fun p => p.1)

/-- `pattern.search`: the captured group of the leftmost match, if any. -/
def searchOutput : List Char → Option (List Char)
  | [] => none
  | c :: cs =>
    match matchOutputAt (c :: cs) with
    | some g => some g
    | none => searchOutput cs

/-- What the non-interactive path prints (rbot.py lines 286-290): the
stripped captured group when the reply contains a structured-output
block, the reply itself otherwise. -/
def emitReply (reply : String) : String :=
  match searchOutput reply.data with
  | some g => ⟨pyStripL g⟩
  | none => reply

/-- The non-interactive invocation (rbot.py lines 272-290): resolve the
prompt, append the user turn to the decorator history, call `chat`
unconditionally — there is no abort path between resolution and dispatch
— and print the possibly-extracted reply.  The provider reply is
supplied as a function of the resolved prompt. -/
def nonInteractive (decorators : List String) (promptArg : Option String)
    (promptFileContent : Option String) (stdinFlag : Bool)
    (stdinLines : List String) (replyOf : Option String → String) :
    NonInteractiveRun :=
  let prompt := resolvePrompt promptArg promptFileContent stdinFlag stdinLines
  let history := decorators.map (fun d => RawTurn.mk "system" (some d))
      ++ [RawTurn.mk "user" prompt]
  let reply := replyOf prompt
  { historySent := history
    promptSent := prompt
    dispatched := true
    printed := emitReply reply }

/-- Translation of the spec's wording of the structured-output
convention, for comparison against the scan above: the reply contains,
somewhere, the marker `OUTPUT`, an `=` with at most one space on each
side, an opening triple quote, some inner text, and a closing triple
quote. -/
def eqForms : List (List Char) :=
  [['='], [' ', '='], ['=', ' '], [' ', '=', ' ']]

/-- The reply contains a structured-output block (spec wording). -/
def hasOutputBlock (reply : String) : Prop :=
  ∃ pre eqp inner post : List Char, eqp ∈ eqForms ∧
    reply.data = pre ++ outputChars ++ eqp ++ tq ++ inner ++ tq ++ post

/-! ## Helper lemmas -/

theorem foldl_concat_turns (l : List String) :
    ∀ acc : List Turn,
      l.foldl (fun h d => h ++ [systemTurn d]) acc = acc ++ l.map systemTurn := by
  induction l with
  | nil => intro acc; simp
  | cons d t ih => intro acc; simp [List.foldl_cons, ih]

theorem decoratorHistory_eq_map (l : List String) :
    decoratorHistory l = l.map systemTurn := by
  simp [decoratorHistory, foldl_concat_turns]

theorem buildHistory_eq_map (l : List String) (p : String) :
    buildHistory l p = l.map systemTurn ++ [userTurn p] := by
  simp [buildHistory, decoratorHistory_eq_map]

/-! ## Claims -/

/-- C1: for every ordered list of instruction texts `I`, ordered list of
dataset texts `D`, and prompt text `P`, when no prior history is
supplied, the history builder produces one system turn per element of
`I` in order, then one system turn per element of `D` in order, then a
single user turn whose content is `P`.  In rbot the instruction and
dataset texts reach the builder as one ordered decorator list, the
instruction sources first. -/
theorem rbot_c1 (I D : List String) (P : String) :
    chatMessages (I ++ D) P none
      = I.map systemTurn ++ D.map systemTurn ++ [userTurn P] := by
  simp [chatMessages, buildHistory_eq_map]

/-- C2: for every prior history `H` and new prompt `P`, the composed
history sent to dispatch is `H` with exactly one user turn containing
`P` appended, and the decorator material is not re-applied: a loaded
session replaces the decorator-built history in `main`, and the
message list `chat` transmits is exactly the passed history, whatever
the decorator list holds. -/
theorem rbot_c2 (H : List Turn) (P : String) (decorators : List String) :
    chatMessages decorators P
        (some (mainInitialHistory decorators (some H) ++ [userTurn P]))
      = H ++ [userTurn P] := by
  have hne : (H ++ [userTurn P]).isEmpty = false := by
    cases H <;> simp [List.isEmpty]
  simp [mainInitialHistory, chatMessages, hne]

/-- decoding inverts encoding on a single turn. -/
theorem decodeTurn_encodeTurn (t : Turn) : decodeTurn (encodeTurn t) = some t := by
  obtain ⟨r, c⟩ := t
  cases r <;> simp [encodeTurn, decodeTurn, jlookup, Role.toStr, roleOfStr]

/-- decoding inverts encoding on a whole history. -/
theorem decodeHistory_encodeHistory (h : List Turn) :
    decodeHistory (encodeHistory h) = some h := by
  simp only [decodeHistory, encodeHistory]
  induction h with
  | nil => rfl
  | cons t ts ih =>
    rw [List.map_cons, List.mapM_cons, decodeTurn_encodeTurn, ih]
    rfl

/-- C3: for every valid history `h` and session name `n`, saving `h`
under `n` and then loading `n` returns a history equal to `h` — every
turn's role and content text are preserved exactly and the order of
turns is preserved. -/
theorem rbot_c3 (store : SessionStore) (h : List Turn) (n : String) :
    sessionLoad (sessionSave store n h) n = some h := by
  simp [sessionLoad, sessionSave, jlookup, decodeHistory_encodeHistory]

/-- concatenation of a string list, in order. -/
def concatAll (l : List String) : String := l.foldr (fun a b => a ++ b) ""

theorem openaiReply_foldl (fragments : List (Option String)) :
    ∀ acc : String,
      fragments.foldl
        (fun response t =>
          match t with
          | some text => if text = "" then response else response ++ text
          | none => response) acc
      = acc ++ concatAll ((fragments.filterMap id).filter (fun t => !(t == ""))) := by
  induction fragments with
  | nil => intro acc; simp [concatAll]
  | cons f fs ih =>
    intro acc
    cases f with
    | none => simp [ih]
    | some text =>
      by_cases h : text = "" <;>
        simp [h, ih, concatAll, String.append_assoc]

/-- C4: for the chat-style (openai) variant, the reply string equals the
concatenation, in arrival order, of the non-empty content fields of the
response fragments; a single payload (the non-streaming case) comes back
verbatim — in both cases the caller receives one complete string. -/
theorem rbot_c4 :
    (∀ fragments : List (Option String),
        openaiReply fragments
          = concatAll ((fragments.filterMap id).filter (fun t => !(t == ""))))
    ∧ (∀ text : String, openaiReply [some text] = text) := by
  constructor
  · intro fragments
    simpa using openaiReply_foldl fragments ""
  · intro text
    by_cases h : text = "" <;> simp [openaiReply, h]

/-- C5: for the single-prompt (anthropic) variant, the transmitted
request wraps only the latest user turn's content `p` between the human
and assistant markers, registers the human marker as a stop sequence,
and transmits none of the earlier history `h` — the request value does
not mention `h` at all. -/
theorem rbot_c5 (h : List Turn) (p model : String) (decorators : List String)
    (max_tokens request_timeout : Nat) (stream : Bool) (temperature : Rat) :
    chatRequest p decorators model max_tokens stream request_timeout
        temperature (some (h ++ [userTurn p])) "anthropic"
      = Request.anthropicReq
          { prompt := HUMAN_PROMPT ++ " " ++ p ++ " " ++ AI_PROMPT
            stop_sequences := [HUMAN_PROMPT]
            model := model
            max_tokens_to_sample := max_tokens }
    ∧ (h ++ [userTurn p]).getLast? = some (userTurn p) := by
  exact ⟨rfl, List.getLast?_concat _⟩

/-- C10: for the single-prompt (anthropic) variant, the transmitted
request is a function of only the prompt, model, and max_tokens
arguments — two calls agreeing on those but differing arbitrarily in
decorators, history, temperature, stream, or request timeout transmit
identical requests. -/
theorem rbot_c10 (p model : String) (max_tokens : Nat)
    (d₁ d₂ : List String) (h₁ h₂ : Option (List Turn)) (t₁ t₂ : Rat)
    (s₁ s₂ : Bool) (rt₁ rt₂ : Nat) :
    chatRequest p d₁ model max_tokens s₁ rt₁ t₁ h₁ "anthropic"
      = chatRequest p d₂ model max_tokens s₂ rt₂ t₂ h₂ "anthropic" := rfl

/-- C8: for every input, with the engine name among the configured ones,
the dispatcher's return value is a string and never `None`; and when the
provider returns no generated tokens (no fragments, empty completion)
the returned string is empty. -/
theorem rbot_c8 (fragments : List (Option String)) (completion : String)
    (p : String) (d : List String) (model : String) (mt : Nat) (s : Bool)
    (rt : Nat) (temp : Rat) (hist : Option (List Turn)) (engine : String)
    (hconf : engine ∈ configuredEngines) :
    (chat fragments completion p d model mt s rt temp hist engine).isSome
        = true
    ∧ (fragments = [] → completion = "" →
        chat fragments completion p d model mt s rt temp hist engine
          = some "") := by
  simp only [configuredEngines, List.mem_cons, List.mem_singleton,
    List.not_mem_nil, or_false] at hconf
  rcases hconf with rfl | rfl
  · refine ⟨rfl, ?_⟩
    rintro rfl rfl
    rfl
  · refine ⟨rfl, ?_⟩
    rintro rfl rfl
    rfl

/-- witness for C8 at a concrete call: openai engine, no fragments. -/
theorem rbot_c8_witness :
    (chat [] "" "q" [] "gpt-4" 1000 true 15 (3/4 : Rat) none "openai").isSome
        = true
    ∧ ((([] : List (Option String)) = []) → ("" : String) = "" →
        chat [] "" "q" [] "gpt-4" 1000 true 15 (3/4 : Rat) none "openai"
          = some "") :=
  rbot_c8 [] "" "q" [] "gpt-4" 1000 true 15 (3/4 : Rat) none "openai"
    (by decide)

/-- C6 counterexample: the claim says a dispatch failure in the
interactive loop is reported and the loop continues awaiting new input;
on the concrete input `"hi"` with a failing provider, the iteration
ends with the exception propagating out of the loop (nothing catches
it), not with the loop awaiting input. -/
theorem rbot_c6_counterexample :
    loopStep (fun _ _ => Except.error "boom") [] "hi"
        = LoopOutcome.crashed [userTurn "hi"] "boom"
    ∧ (loopStep (fun _ _ => Except.error "boom") [] "hi").isAwaiting
        = false := by
  decide

/-- C6 amended: for every history, ordinary input line (neither the quit
nor the save command) and provider failure raised during dispatch, the
history gains exactly the triggering user turn, which remains the last
entry — no assistant turn is appended — but the interactive loop
terminates with the uncaught exception instead of continuing to await
input. -/
theorem rbot_c6_amended (dispatch : List Turn → String → Except String String)
    (history : List Turn) (input e : String)
    (hq : pyLower input ≠ "/quit")
    (hs : List.isPrefixOf "/save ".data (pyLower input).data = false)
    (hd : dispatch (history ++ [userTurn input]) input = Except.error e) :
    loopStep dispatch history input
        = LoopOutcome.crashed (history ++ [userTurn input]) e
    ∧ (history ++ [userTurn input]).getLast? = some (userTurn input) := by
  refine ⟨?_, List.getLast?_concat _⟩
  simp [loopStep, hq, hs, hd]

/-- witness for C6 amended at a concrete failing dispatch. -/
theorem rbot_c6_witness :
    loopStep (fun _ _ => Except.error "boom") [] "oops"
        = LoopOutcome.crashed ([] ++ [userTurn "oops"]) "boom"
    ∧ (([] : List Turn) ++ [userTurn "oops"]).getLast?
        = some (userTurn "oops") :=
  rbot_c6_amended (fun _ _ => Except.error "boom") [] "oops" "boom"
    (by decide) (by decide) rfl

/-- C9 counterexample: the claim says that with no resolvable prompt
source the invocation fails with an `InputError` and aborts without a
dispatch round trip; on the concrete invocation with no `-p`, no prompt
file and no stdin, the code performs the dispatch anyway, with a `None`
prompt appended as the user turn. -/
theorem rbot_c9_counterexample :
    (nonInteractive [] none none false [] (fun _ => "reply")).dispatched
        = true
    ∧ (nonInteractive [] none none false [] (fun _ => "reply")).promptSent
        = none
    ∧ (nonInteractive [] none none false [] (fun _ => "reply")).historySent
        = [RawTurn.mk "user" none] := by
  decide

/-- C9 amended: under non-interactive invocation, when none of the
prompt sources is resolvable, no error is raised and the invocation does
not abort: a user turn whose content is `None` is appended after the
decorator turns and the dispatch round trip is still performed. -/
theorem rbot_c9_amended (decorators : List String)
    (promptArg promptFileContent : Option String) (stdinFlag : Bool)
    (stdinLines : List String) (replyOf : Option String → String)
    (hnone : resolvePrompt promptArg promptFileContent stdinFlag stdinLines
        = none) :
    (nonInteractive decorators promptArg promptFileContent stdinFlag
        stdinLines replyOf).dispatched = true
    ∧ (nonInteractive decorators promptArg promptFileContent stdinFlag
        stdinLines replyOf).historySent
      = decorators.map (fun d => RawTurn.mk "system" (some d))
          ++ [RawTurn.mk "user" none] := by
  refine ⟨rfl, ?_⟩
  simp [nonInteractive, hnone]

/-- witness for C9 amended at the empty invocation. -/
theorem rbot_c9_witness :
    (nonInteractive [] none none false [] (fun _ => "reply")).dispatched
        = true
    ∧ (nonInteractive [] none none false [] (fun _ => "reply")).historySent
      = ([] : List String).map (fun d => RawTurn.mk "system" (some d))
          ++ [RawTurn.mk "user" none] :=
  rbot_c9_amended [] none none false [] (fun _ => "reply") rfl

/-! ## Correctness of the structured-output scan -/

theorem dropLit_sound (l : List Char) :
    ∀ {cs r : List Char}, dropLit l cs = some r → cs = l ++ r := by
  induction l with
  | nil => intro cs r h; simp [dropLit] at h; simp [h]
  | cons x xs ih =>
    intro cs r h
    cases cs with
    | nil => simp [dropLit] at h
    | cons c cs' =>
      simp only [dropLit] at h
      split at h
      · next hc => subst hc; simp [ih h]
      · exact absurd h (by simp)

theorem dropLit_append (l r : List Char) : dropLit l (l ++ r) = some r := by
  induction l with
  | nil => rfl
  | cons x xs ih => simp [dropLit, ih]

theorem eatOptSpaceLit_sound {lit cs r : List Char}
    (h : eatOptSpaceLit lit cs = some r) :
    cs = lit ++ r ∨ cs = ' ' :: (lit ++ r) := by
  cases cs with
  | nil =>
    simp only [eatOptSpaceLit] at h
    exact Or.inl (dropLit_sound lit h)
  | cons c cs' =>
    simp only [eatOptSpaceLit] at h
    split at h
    · next hc =>
      subst hc
      exact Or.inr (by rw [dropLit_sound lit h])
    · exact Or.inl (dropLit_sound lit h)

theorem eatOptSpaceLit_cons (x : Char) (xs r : List Char) (hx : x ≠ ' ') :
    eatOptSpaceLit (x :: xs) ((x :: xs) ++ r) = some r := by
  simp only [eatOptSpaceLit, List.cons_append]
  rw [if_neg hx]
  exact dropLit_append _ _

theorem eatOptSpaceLit_space (lit r : List Char) :
    eatOptSpaceLit lit (' ' :: (lit ++ r)) = some r := by
  simp only [eatOptSpaceLit, if_pos rfl]
  exact dropLit_append _ _

theorem splitAtTriple_sound :
    ∀ {cs g rest : List Char},
      splitAtTriple cs = some (g, rest) → cs = g ++ tq ++ rest := by
  intro cs
  induction cs with
  | nil => intro g rest h; simp [splitAtTriple] at h
  | cons c cs' ih =>
    intro g rest h
    simp only [splitAtTriple] at h
    split at h
    · next hc =>
      obtain ⟨hc1, hc2⟩ := hc
      simp only [Option.some.injEq, Prod.mk.injEq] at h
      obtain ⟨hg, hrest⟩ := h
      subst hg
      subst hrest
      subst hc1
      have h5 : ('\"' :: cs' : List Char)
          = '\"' :: (['\"', '\"'] ++ cs'.drop 2) := by
        rw [← hc2, List.take_append_drop]
      rw [h5]
      rfl
    · cases hsp : splitAtTriple cs' with
      | none => rw [hsp] at h; simp at h
      | some p =>
        rw [hsp] at h
        obtain ⟨g', rest'⟩ := p
        simp only [Option.map_some', Option.some.injEq, Prod.mk.injEq] at h
        obtain ⟨hg, hrest⟩ := h
        subst hrest
        rw [← hg]
        simp [ih hsp]

theorem splitAtTriple_complete (inner rest : List Char) :
    (splitAtTriple (inner ++ (tq ++ rest))).isSome = true := by
  induction inner with
  | nil => simp [splitAtTriple, tq]
  | cons c cs ih =>
    simp only [List.cons_append, splitAtTriple]
    split
    · rfl
    · simpa using ih

theorem matchOutputAt_sound {cs g : List Char}
    (h : matchOutputAt cs = some g) :
    ∃ eqp rest, eqp ∈ eqForms
      ∧ cs = outputChars ++ eqp ++ tq ++ g ++ tq ++ rest := by
  simp only [matchOutputAt] at h
  split at h
  · simp at h
  · next cs1 h1 =>
    split at h
    · simp at h
    · next cs2 h2 =>
      split at h
      · simp at h
      · next cs3 h3 =>
        cases h4 : splitAtTriple cs3 with
        | none => rw [h4] at h; simp at h
        | some p =>
          rw [h4] at h
          obtain ⟨g', rest⟩ := p
          simp only [Option.map_some', Option.some.injEq] at h
          subst h
          have e1 := dropLit_sound outputChars h1
          have e4 := splitAtTriple_sound h4
          rcases eatOptSpaceLit_sound h2 with e2 | e2 <;>
            rcases eatOptSpaceLit_sound h3 with e3 | e3
          · exact ⟨['='], rest, by simp [eqForms],
              by simp [e1, e2, e3, e4, List.append_assoc]⟩
          · exact ⟨['=', ' '], rest, by simp [eqForms],
              by simp [e1, e2, e3, e4, List.append_assoc]⟩
          · exact ⟨[' ', '='], rest, by simp [eqForms],
              by simp [e1, e2, e3, e4, List.append_assoc]⟩
          · exact ⟨[' ', '=', ' '], rest, by simp [eqForms],
              by simp [e1, e2, e3, e4, List.append_assoc]⟩

theorem matchOutputAt_complete {eqp : List Char} (he : eqp ∈ eqForms)
    (inner post : List Char) :
    (matchOutputAt
        (outputChars ++ eqp ++ tq ++ inner ++ tq ++ post)).isSome = true := by
  have assoc :
      outputChars ++ eqp ++ tq ++ inner ++ tq ++ post
        = outputChars ++ (eqp ++ (tq ++ (inner ++ (tq ++ post)))) := by
    simp [List.append_assoc]
  rw [assoc]
  have h1 : ∀ r : List Char,
      dropLit outputChars (outputChars ++ r) = some r := fun r =>
    dropLit_append _ r
  simp only [eqForms, List.mem_cons, List.mem_singleton,
    List.not_mem_nil, or_false] at he
  rcases he with rfl | rfl | rfl | rfl
  · have h2 : eatOptSpaceLit ['=']
        (['='] ++ (tq ++ (inner ++ (tq ++ post))))
        = some (tq ++ (inner ++ (tq ++ post))) :=
      eatOptSpaceLit_cons '=' [] _ (by decide)
    have h3 : eatOptSpaceLit tq (tq ++ (inner ++ (tq ++ post)))
        = some (inner ++ (tq ++ post)) :=
      eatOptSpaceLit_cons '\"' ['\"', '\"'] _ (by decide)
    simp only [matchOutputAt, h1, h2, h3, Option.isSome_map']
    exact splitAtTriple_complete inner post
  · have h2 : eatOptSpaceLit ['=']
        ([' ', '='] ++ (tq ++ (inner ++ (tq ++ post))))
        = some (tq ++ (inner ++ (tq ++ post))) :=
      eatOptSpaceLit_space ['='] (tq ++ (inner ++ (tq ++ post)))
    have h3 : eatOptSpaceLit tq (tq ++ (inner ++ (tq ++ post)))
        = some (inner ++ (tq ++ post)) :=
      eatOptSpaceLit_cons '\"' ['\"', '\"'] _ (by decide)
    simp only [matchOutputAt, h1, h2, h3, Option.isSome_map']
    exact splitAtTriple_complete inner post
  · have h2 : eatOptSpaceLit ['=']
        (['=', ' '] ++ (tq ++ (inner ++ (tq ++ post))))
        = some (' ' :: (tq ++ (inner ++ (tq ++ post)))) :=
      eatOptSpaceLit_cons '=' [] _ (by decide)
    have h3 : eatOptSpaceLit tq (' ' :: (tq ++ (inner ++ (tq ++ post))))
        = some (inner ++ (tq ++ post)) :=
      eatOptSpaceLit_space tq (inner ++ (tq ++ post))
    simp only [matchOutputAt, h1, h2, h3, Option.isSome_map']
    exact splitAtTriple_complete inner post
  · have h2 : eatOptSpaceLit ['=']
        ([' ', '=', ' '] ++ (tq ++ (inner ++ (tq ++ post))))
        = some (' ' :: (tq ++ (inner ++ (tq ++ post)))) :=
      eatOptSpaceLit_space ['='] (' ' :: (tq ++ (inner ++ (tq ++ post))))
    have h3 : eatOptSpaceLit tq (' ' :: (tq ++ (inner ++ (tq ++ post))))
        = some (inner ++ (tq ++ post)) :=
      eatOptSpaceLit_space tq (inner ++ (tq ++ post))
    simp only [matchOutputAt, h1, h2, h3, Option.isSome_map']
    exact splitAtTriple_complete inner post

theorem searchOutput_sound :
    ∀ {cs g : List Char}, searchOutput cs = some g →
      ∃ pre eqp rest, eqp ∈ eqForms
        ∧ cs = pre ++ outputChars ++ eqp ++ tq ++ g ++ tq ++ rest := by
  intro cs
  induction cs with
  | nil => intro g h; simp [searchOutput] at h
  | cons c cs' ih =>
    intro g h
    simp only [searchOutput] at h
    split at h
    · next g' hm =>
      simp only [Option.some.injEq] at h
      subst h
      obtain ⟨eqp, rest, he, hdec⟩ := matchOutputAt_sound hm
      exact ⟨[], eqp, rest, he, by simp [hdec]⟩
    · obtain ⟨pre, eqp, rest, he, hdec⟩ := ih h
      exact ⟨c :: pre, eqp, rest, he, by simp [hdec]⟩

theorem searchOutput_of_matchAt :
    ∀ {cs : List Char}, (matchOutputAt cs).isSome = true →
      (searchOutput cs).isSome = true := by
  intro cs h
  cases cs with
  | nil => simp [matchOutputAt, outputChars, dropLit] at h
  | cons c cs' =>
    cases hm : matchOutputAt (c :: cs') with
    | some g => simp [searchOutput, hm]
    | none => rw [hm] at h; simp at h

theorem searchOutput_cons_isSome (c : Char) (cs : List Char)
    (h : (searchOutput cs).isSome = true) :
    (searchOutput (c :: cs)).isSome = true := by
  cases hm : matchOutputAt (c :: cs) with
  | some g => simp [searchOutput, hm]
  | none => simp [searchOutput, hm, h]

theorem searchOutput_complete :
    ∀ (pre : List Char) {cs eqp inner post : List Char}, eqp ∈ eqForms →
      cs = pre ++ outputChars ++ eqp ++ tq ++ inner ++ tq ++ post →
      (searchOutput cs).isSome = true := by
  intro pre
  induction pre with
  | nil =>
    intro cs eqp inner post he hdec
    subst hdec
    simp only [List.nil_append]
    exact searchOutput_of_matchAt (matchOutputAt_complete he inner post)
  | cons c pre' ih =>
    intro cs eqp inner post he hdec
    subst hdec
    simp only [List.cons_append]
    exact searchOutput_cons_isSome c _ (ih he rfl)

/-- C7: under non-interactive invocation, if the reply contains a block
of the form `OUTPUT=\x22\x22\x22...\x22\x22\x22` then the inner delimited
text, with surrounding whitespace stripped, is emitted; otherwise the
full reply is emitted unchanged; and the reply
`OUTPUT=\x22\x22\x22Result: 42\x22\x22\x22` emits exactly `Result: 42`. -/
theorem rbot_c7 :
    (∀ reply : String, hasOutputBlock reply →
        ∃ pre eqp inner post : List Char, eqp ∈ eqForms
          ∧ reply.data = pre ++ outputChars ++ eqp ++ tq ++ inner ++ tq ++ post
          ∧ emitReply reply = ⟨pyStripL inner⟩)
    ∧ (∀ reply : String, ¬ hasOutputBlock reply → emitReply reply = reply)
    ∧ emitReply "OUTPUT=\"\"\"Result: 42\"\"\"" = "Result: 42" := by
  refine ⟨?_, ?_, by decide⟩
  · intro reply hb
    obtain ⟨pre, eqp, inner, post, he, hdata⟩ := hb
    have hs : (searchOutput reply.data).isSome = true :=
      searchOutput_complete pre he hdata
    obtain ⟨g, hg⟩ := Option.isSome_iff_exists.mp hs
    obtain ⟨pre', eqp', rest', he', hdec⟩ := searchOutput_sound hg
    exact ⟨pre', eqp', g, rest', he', hdec, by simp [emitReply, hg]⟩
  · intro reply hb
    cases hg : searchOutput reply.data with
    | none => simp [emitReply, hg]
    | some g =>
      exfalso
      apply hb
      obtain ⟨pre, eqp, rest, he, hdec⟩ := searchOutput_sound hg
      exact ⟨pre, eqp, g, rest, he, hdec⟩

/-- witness for C7: the scenario reply contains a block, and its
stripped inner text is what is emitted. -/
theorem rbot_c7_witness :
    ∃ pre eqp inner post : List Char, eqp ∈ eqForms
      ∧ ("OUTPUT=\"\"\"Result: 42\"\"\"" : String).data
          = pre ++ outputChars ++ eqp ++ tq ++ inner ++ tq ++ post
      ∧ emitReply "OUTPUT=\"\"\"Result: 42\"\"\"" = ⟨pyStripL inner⟩ :=
  rbot_c7.1 "OUTPUT=\"\"\"Result: 42\"\"\""
    ⟨[], ['='], "Result: 42".data, [], by decide, by decide⟩

end Rbot
